import Mathlib

/-!
Shallow embedding of the access-control and sharing core of the
`api-storage` file-storage gateway, together with proofs of the
specification claims about it.

Strings from the TypeScript source are modelled as `List Char`.
External collaborators (the object store, bcrypt, the SQL engine) are
modelled at their interface:

* `getUrl : List Char → List Char` stands for
  `storageService.getDownloadUrl(key)`;
* a comparator `cmp : List Char → List Char → Bool` stands for
  `bcrypt.compare(password, hash)`, and `bcryptHashModel` for
  `bcrypt.hash(password, 10)` (an opaque injective encoding; the claims
  never inspect hash values);
* SQL `LIKE` is given executable semantics by `likeMatch` in the dialect
  assumed by `escapeLikeString` (backslash as escape character).

HTTP status payloads (error message strings) are abstracted into result
constructors; each constructor is documented with the HTTP response of
the source it stands for.
-/

namespace ApiStorage

/-- ASCII whitespace recognised by the model of JavaScript
`String.prototype.trim` (the inputs of interest are ASCII). -/
def isSpaceChar (c : Char) : Bool :=
  c = ' ' || c = '\t' || c = '\n' || c = '\r' || c = '\x0b' || c = '\x0c'

/-- Model of JavaScript `str.trim()`: drop leading and trailing
whitespace. -/
def jsTrim (s : List Char) : List Char :=
  ((s.dropWhile isSpaceChar).reverse.dropWhile isSpaceChar).reverse

/-- Model of `str.replace(/^\/+|\/+$/g, '')` from `normalizePath`:
remove the leading run and the trailing run of slashes. -/
def stripSlashes (s : List Char) : List Char :=
  ((s.dropWhile (· = '/')).reverse.dropWhile (· = '/')).reverse

/-- Model of JavaScript `hay.includes(needle)`: substring test. -/
def containsSub (needle hay : List Char) : Bool :=
  hay.tails.any (fun t => needle.isPrefixOf t)

/-- The character class `[a-zA-Z0-9/_-]` of `normalizePath`. -/
def pathCharAllowed (c : Char) : Bool :=
  c.isAlpha || c.isDigit || c = '/' || c = '_' || c = '-'

/-- Result of `normalizePath`: either a value (`null` modelled as
`none`, i.e. "no path") or a thrown `Error` (`invalidPath`). -/
inductive PathResult where
  /-- The function returned normally with the given value. -/
  | ok (p : Option (List Char))
  /-- The function threw (`Path cannot contain ".."`,
  `Path cannot contain consecutive slashes`, or
  `Path contains invalid characters`). -/
  | invalidPath
deriving Repr, DecidableEq

/-- Embedding of `normalizePath` from `src/utils/validate.ts`:
trim, strip leading/trailing slashes, return `null` when empty,
throw on `..`, on `//`, and on characters outside `[a-zA-Z0-9/_-]`. -/
def normalizePath (path : Option (List Char)) : PathResult :=
  match path with
  | none => .ok none
  | some p =>
    if p = [] then .ok none
    else
      let normalized := stripSlashes (jsTrim p)
      if normalized = [] then .ok none
      else if containsSub ['.', '.'] normalized then .invalidPath
      else if containsSub ['/', '/'] normalized then .invalidPath
      else if ¬ normalized.all pathCharAllowed then .invalidPath
      else .ok (some normalized)

/-- Embedding of `escapeLikeString` from `src/utils/validate.ts`:
`str.replace(/[%_\\]/g, '\\$&')`, prefixing each LIKE metacharacter
with a backslash. -/
def escapeLikeString (s : List Char) : List Char :=
  match s with
  | [] => []
  | c :: rest =>
    if c = '%' || c = '_' || c = '\\' then '\\' :: c :: escapeLikeString rest
    else c :: escapeLikeString rest

/-- Executable semantics of a SQL `LIKE` pattern with `%` (any
sequence), `_` (any single character) and backslash as escape
character — the dialect `escapeLikeString` prepares strings for.
A `%` consumes any suffix of the subject. -/
def likeMatch : List Char → List Char → Bool
  | [], s => s = []
  | '%' :: ps, s => s.tails.any (fun t => likeMatch ps t)
  | '\\' :: p :: ps, s =>
    match s with
    | c :: rest => p = c && likeMatch ps rest
    | [] => false
  | '_' :: ps, s =>
    match s with
    | _ :: rest => likeMatch ps rest
    | [] => false
  | p :: ps, s =>
    match s with
    | c :: rest => p = c && likeMatch ps rest
    | [] => false

/-- The LIKE pattern the list-files route builds for the `search`
filter: `` Like(`%${search}%`) `` — the raw caller value embedded
between two wildcards, with no escaping. -/
def buildNamePattern (search : List Char) : List Char :=
  '%' :: search ++ ['%']

/-- Numeric value of a list of decimal digit characters. -/
def digitsVal (s : List Char) : Nat :=
  s.foldl (fun a c => a * 10 + (c.toNat - '0'.toNat)) 0

/-- Model of the zod validator `z.string().regex(/^\d+$/).transform(Number)`
used for ids, `ttl`, `page` and `limit`: accept exactly the nonempty
all-digit strings and read them in base 10. -/
def parseDigits (s : List Char) : Option Nat :=
  if s ≠ [] ∧ s.all Char.isDigit then some (digitsVal s) else none

/-- Model of JavaScript `parseInt(s, 10)` (used without a regex guard by
`GET /files/:id/shares`): skip leading whitespace, read an optional
sign and then the leading run of digits; `NaN` is `none`. -/
def jsParseInt (s : List Char) : Option Int :=
  let t := s.dropWhile isSpaceChar
  let (neg, u) :=
    match t with
    | '-' :: rest => (true, rest)
    | '+' :: rest => (false, rest)
    | _ => (false, t)
  let ds := u.takeWhile Char.isDigit
  if ds = [] then none
  else some (if neg then -(digitsVal ds : Int) else (digitsVal ds : Int))

/-- Decimal rendering of a natural number, as the character list of the
template-string interpolation `` `${userId}` ``. -/
def natChars (n : Nat) : List Char :=
  (toString n).toList

/-- The storage-key scope of a tenant: `` `${userId}/` ``. -/
def tenantHead (userId : Nat) : List Char :=
  natChars userId ++ ['/']

/-- A `files` row (`FileEntity`): id, original name, optional display
name, storage key, optional virtual path, MIME type, byte size,
optional free-form metadata blob, creation time (epoch ms). -/
structure FileRec where
  id : Nat
  name : List Char
  customName : Option (List Char)
  key : List Char
  path : Option (List Char)
  mime : List Char
  size : Nat
  metadata : Option (List Char)
  createdAt : Nat
deriving Repr, DecidableEq

/-- A `share_links` row (`ShareLinkEntity`): id, unique token, owning
file id, expiry (epoch ms), optional bcrypt password hash, access
counter, active flag, creation time. -/
structure ShareLink where
  id : Nat
  token : List Char
  fileId : Nat
  expiresAt : Nat
  password : Option (List Char)
  accessCount : Nat
  isActive : Bool
  createdAt : Nat
deriving Repr, DecidableEq

/-- The metadata store: the `files` and `share_links` tables. -/
structure Store where
  files : List FileRec
  shares : List ShareLink
deriving Repr, DecidableEq

/-- `fileRepo.findOne({ where: { id } })`. -/
def findFile (st : Store) (fid : Nat) : Option FileRec :=
  st.files.find? (fun f => f.id = fid)

/-- `shareLinkRepo.findOne({ where: { token } })`. -/
def findShare (st : Store) (token : List Char) : Option ShareLink :=
  st.shares.find? (fun l => l.token = token)

/-- The token format check of `accessShareLinkSchema` /
`deleteShareLinkSchema`: `z.string().startsWith('share_')`. -/
def tokenWellFormed (token : List Char) : Bool :=
  "share_".toList.isPrefixOf token

/-- Opaque executable model of `bcrypt.hash(password, 10)`; the claims
never inspect hash values, only route them. -/
def bcryptHashModel (pw : List Char) : List Char :=
  '$' :: '2' :: 'b' :: pw

/-- Injected collaborators of the share-access handler:
the bcrypt comparator, the object store's presigned-URL generator, and
whether the repository `save` persisting the access-count increment
succeeds (a failing save throws into the handler's catch). -/
structure Deps where
  cmp : List Char → List Char → Bool
  getUrl : List Char → List Char
  saveOk : Bool

/-- The file descriptor returned on a successful public share access:
id, name, customName, mime, size, createdAt — and no storage key. -/
structure SharedFilePayload where
  id : Nat
  name : List Char
  customName : Option (List Char)
  mime : List Char
  size : Nat
  createdAt : Nat
deriving Repr, DecidableEq

/-- Outcome of `GET /share/:token` (`createShareRouter`). -/
inductive AccessResult where
  /-- 400, zod validation failure (malformed token). -/
  | badRequest
  /-- 404 `Share link not found`. -/
  | notFound
  /-- 403 `Share link has been revoked`. -/
  | revoked
  /-- 410 `Share link has expired`. -/
  | expired
  /-- 401 `Password required` with `requiresPassword: true`. -/
  | passwordRequired
  /-- 401 `Invalid password`. -/
  | invalidPassword
  /-- 200 with file descriptor, download URL, link expiry and
  post-increment access count. -/
  | granted (file : SharedFilePayload) (downloadUrl : List Char)
      (expiresAt : Nat) (accessCount : Nat)
  /-- 500 `Failed to access share link` (the catch block). -/
  | serverError
deriving Repr, DecidableEq

/-- Whether an access outcome is a success. -/
def AccessResult.isGranted : AccessResult → Bool
  | .granted _ _ _ _ => true
  | _ => false

/-- The six local failure outcomes of the gate (everything but a grant
and the catch-all 500). -/
def AccessResult.isLocalFailure : AccessResult → Bool
  | .badRequest | .notFound | .revoked | .expired
  | .passwordRequired | .invalidPassword => true
  | _ => false

/-- Embedding of the public share-access handler
`GET /share/:token` of `createShareRouter`:
validate the token format, look up the link (with its file relation),
check `isActive`, check `new Date() > expiresAt`, check the password
against the stored bcrypt hash, then increment and persist
`accessCount`, generate the download URL and answer.  A failing
persist of the increment throws into the catch (500) and leaves the
store unchanged.  `now` is `Date.now()` in epoch ms. -/
def accessShare (d : Deps) (st : Store) (token : List Char)
    (password : Option (List Char)) (now : Nat) : AccessResult × Store :=
  if ¬ tokenWellFormed token then (.badRequest, st)
  else
    match findShare st token with
    | none => (.notFound, st)
    | some link =>
      if ¬ link.isActive then (.revoked, st)
      else if now > link.expiresAt then (.expired, st)
      else
        let passGate : Option AccessResult :=
          match link.password with
          | none => none
          | some h =>
            match password with
            | none => some .passwordRequired
            | some p => if ¬ d.cmp p h then some .invalidPassword else none
        match passGate with
        | some r => (r, st)
        | none =>
          let link' := { link with accessCount := link.accessCount + 1 }
          if ¬ d.saveOk then (.serverError, st)
          else
            let st' := { st with
              shares := st.shares.map (fun s => if s.id = link.id then link' else s) }
            match st.files.find? (fun f => f.id = link.fileId) with
            | none => (.serverError, st')
            | some f =>
              (.granted ⟨f.id, f.name, f.customName, f.mime, f.size, f.createdAt⟩
                (d.getUrl f.key) link.expiresAt link'.accessCount, st')

/-- Outcome of `DELETE /share/:token` (revocation). -/
inductive RevokeResult where
  /-- 400, zod validation failure. -/
  | badRequest
  /-- 404 `Share link not found`. -/
  | notFound
  /-- 200 `Share link revoked successfully`. -/
  | ok
deriving Repr, DecidableEq

/-- Embedding of the protected revocation handler
`DELETE /share/:token` of `createShareRouter`: validate the token
format, look up the link, set `isActive := false` and save. -/
def revokeShare (st : Store) (token : List Char) : RevokeResult × Store :=
  if ¬ tokenWellFormed token then (.badRequest, st)
  else
    match findShare st token with
    | none => (.notFound, st)
    | some link =>
      (.ok, { st with
        shares := st.shares.map (fun s =>
          if s.id = link.id then { link with isActive := false } else s) })

/-- `createdAt`-descending order on file rows (`order: { createdAt: 'DESC' }`). -/
def fileNewer (a b : FileRec) : Prop := b.createdAt ≤ a.createdAt

instance : DecidableRel fileNewer := fun a b => Nat.decLe b.createdAt a.createdAt

instance : IsTotal FileRec fileNewer :=
  ⟨fun a b => Nat.le_total b.createdAt a.createdAt⟩

instance : IsTrans FileRec fileNewer :=
  ⟨fun _ _ _ h h2 => Nat.le_trans h2 h⟩

/-- Sort file rows by creation time, newest first. -/
def sortFilesDesc (l : List FileRec) : List FileRec :=
  l.insertionSort fileNewer

/-- `createdAt`-descending order on share links. -/
def shareNewer (a b : ShareLink) : Prop := b.createdAt ≤ a.createdAt

instance : DecidableRel shareNewer := fun a b => Nat.decLe b.createdAt a.createdAt

/-- Sort share links by creation time, newest first. -/
def sortSharesDesc (l : List ShareLink) : List ShareLink :=
  l.insertionSort shareNewer

/-- `getFullPath` from `files.route.ts`:
`` path ? `${path}/${filename}` : filename ``. -/
def getFullPath (path : Option (List Char)) (filename : List Char) : List Char :=
  match path with
  | some p => p ++ '/' :: filename
  | none => filename

/-- `` `${baseUrl}/share/${token}` ``. -/
def shareUrlOf (baseUrl token : List Char) : List Char :=
  baseUrl ++ "/share/".toList ++ token

/-- The currently usable share links of a file, as queried by the
detail/list endpoints: `fileId` matches, `isActive: true`,
`expiresAt: MoreThan(new Date())`, ordered by creation time
descending. -/
def activeShares (st : Store) (fid : Nat) (now : Nat) : List ShareLink :=
  sortSharesDesc (st.shares.filter
    (fun l => l.fileId = fid && l.isActive && now < l.expiresAt))

/-- A share link as serialized in tenant-facing responses: token,
share URL, expiry, password-present flag, access count — never the
password hash. -/
structure ShareInfo where
  token : List Char
  shareUrl : List Char
  expiresAt : Nat
  hasPassword : Bool
  accessCount : Nat
deriving Repr, DecidableEq

/-- Serialize a share link for a tenant-facing response. -/
def shareInfoOf (baseUrl : List Char) (l : ShareLink) : ShareInfo :=
  ⟨l.token, shareUrlOf baseUrl l.token, l.expiresAt, l.password.isSome, l.accessCount⟩

/-- Multipart fields of `POST /files/upload` after decoding. -/
structure UploadInput where
  name : List Char
  customName : Option (List Char)
  rawPath : Option (List Char)
  mime : List Char
  size : Nat
  metadata : Option (List Char)
deriving Repr, DecidableEq

/-- Outcome of `POST /files/upload`. -/
inductive UploadResult where
  /-- 400: zod validation failure or `normalizePath` threw. -/
  | badRequest
  /-- 201 with the created row. -/
  | created (row : FileRec)
deriving Repr, DecidableEq

/-- Fresh primary key for an inserted file row. -/
def freshFileId (st : Store) : Nat :=
  (st.files.map (fun f => f.id)).foldr max 0 + 1

/-- Fresh primary key for an inserted share link. -/
def freshShareId (st : Store) : Nat :=
  (st.shares.map (fun l => l.id)).foldr max 0 + 1

/-- Embedding of the authenticated upload handler `POST /files/upload`
of `createFilesRouter`: validate with `uploadFileSchema`, normalize the
path, build the storage key
`` `${userId}/${path}/${timestamp}-${filename}` `` (path segment
omitted when absent), upload the object, then insert the row.  `ts` is
`Date.now()`. -/
def uploadFile (uid : Nat) (inp : UploadInput) (ts : Nat) (st : Store) :
    UploadResult × Store :=
  if ¬ (inp.name ≠ [] ∧ inp.mime ≠ [] ∧ 0 < inp.size) then (.badRequest, st)
  else
    match normalizePath inp.rawPath with
    | .invalidPath => (.badRequest, st)
    | .ok npath =>
      let key :=
        match npath with
        | some q => natChars uid ++ '/' :: (q ++ '/' :: (natChars ts ++ '-' :: inp.name))
        | none => natChars uid ++ '/' :: (natChars ts ++ '-' :: inp.name)
      let row : FileRec :=
        ⟨freshFileId st, inp.name, inp.customName, key, npath, inp.mime,
          inp.size, inp.metadata, ts⟩
      (.created row, { st with files := st.files ++ [row] })

/-- The full file payload of `GET /files/:id`. -/
structure FileDetails where
  id : Nat
  name : List Char
  customName : Option (List Char)
  key : List Char
  path : Option (List Char)
  fullPath : List Char
  mime : List Char
  size : Nat
  metadata : Option (List Char)
  createdAt : Nat
  downloadUrl : List Char
  shareLinks : List ShareInfo
deriving Repr, DecidableEq

/-- Outcome of `GET /files/:id`. -/
inductive DetailsResult where
  /-- 400, id fails `/^\d+$/`. -/
  | badRequest
  /-- 404 `File not found`. -/
  | notFound
  /-- 403 `Access denied. This file belongs to another user.` — carries
  nothing of the file. -/
  | forbidden
  /-- 200 with the full payload. -/
  | ok (payload : FileDetails)
deriving Repr, DecidableEq

/-- Embedding of `GET /files/:id` of `createFilesRouter`: validate the
id, look the row up, reject with 403 unless
`` file.key.startsWith(`${userId}/`) ``, then answer with metadata, a
download URL and the active share links. -/
def getFileDetails (uid : Nat) (idStr : List Char) (st : Store) (now : Nat)
    (getUrl : List Char → List Char) (baseUrl : List Char) : DetailsResult :=
  match parseDigits idStr with
  | none => .badRequest
  | some fid =>
    match findFile st fid with
    | none => .notFound
    | some f =>
      if ¬ (tenantHead uid).isPrefixOf f.key then .forbidden
      else
        .ok ⟨f.id, f.name, f.customName, f.key, f.path, getFullPath f.path f.name,
          f.mime, f.size, f.metadata, f.createdAt, getUrl f.key,
          (activeShares st fid now).map (shareInfoOf baseUrl)⟩

/-- Outcome of `DELETE /files/:id`. -/
inductive DeleteResult where
  /-- 400, id fails `/^\d+$/`. -/
  | badRequest
  /-- 404 `File not found`. -/
  | notFound
  /-- 403 `Access denied. This file belongs to another user.` -/
  | forbidden
  /-- 200 `File deleted successfully`. -/
  | ok
deriving Repr, DecidableEq

/-- Embedding of `DELETE /files/:id` of `createFilesRouter`: validate,
look up, ownership-check, delete the object, then remove the row (the
share links of the file go with it, `onDelete: 'CASCADE'`). -/
def deleteFile (uid : Nat) (idStr : List Char) (st : Store) :
    DeleteResult × Store :=
  match parseDigits idStr with
  | none => (.badRequest, st)
  | some fid =>
    match findFile st fid with
    | none => (.notFound, st)
    | some f =>
      if ¬ (tenantHead uid).isPrefixOf f.key then (.forbidden, st)
      else
        (.ok, { st with
          files := st.files.filter (fun g => ¬ g.id = f.id),
          shares := st.shares.filter (fun l => ¬ l.fileId = f.id) })

/-- Parse an optional `/^\d+$/` field: absent is fine, present must be
all digits. -/
def parseOptDigits (s : Option (List Char)) : Option (Option Nat) :=
  match s with
  | none => some none
  | some v => (parseDigits v).map some

/-- The password rule of `createShareLinkSchema`:
`z.string().min(4).optional()`. -/
def pwdLenOk (pwd : Option (List Char)) : Bool :=
  match pwd with
  | none => true
  | some p => 4 ≤ p.length

/-- `DEFAULT_TTL = 7 * 24 * 60 * 60` — 7 days in seconds. -/
def DEFAULT_TTL : Nat := 7 * 24 * 60 * 60

/-- The handler's `ttl || DEFAULT_TTL`: with `ttl : number | undefined`
a missing value and the falsy `0` both fall back to the default. -/
def ttlOrDefault (ttl : Option Nat) : Nat :=
  match ttl with
  | none => DEFAULT_TTL
  | some n => if n = 0 then DEFAULT_TTL else n

/-- The body of a 201 reply of `POST /files/:id/share`. -/
structure ShareCreated where
  shareUrl : List Char
  token : List Char
  expiresAt : Nat
  hasPassword : Bool
  ttl : Nat
deriving Repr, DecidableEq

/-- Outcome of `POST /files/:id/share`. -/
inductive CreateShareResult where
  /-- 400, `createShareLinkSchema` failure (non-numeric id or ttl,
  password shorter than 4). -/
  | badRequest
  /-- 404 `File not found` (no token is persisted). -/
  | notFound
  /-- 403 `Access denied. This file belongs to another user.` -/
  | forbidden
  /-- 201 with share URL, token, expiry, password flag and effective
  TTL. -/
  | created (resp : ShareCreated)
  /-- 500 (the save hit the unique-token constraint and threw). -/
  | serverError
deriving Repr, DecidableEq

/-- Embedding of `POST /files/:id/share` of `createFilesRouter`:
validate, look the file up, ownership-check, then build the link with
`generateShareToken()` (the `token` argument), `ttlSeconds = ttl ||
DEFAULT_TTL`, `expiresAt = Date.now() + ttlSeconds * 1000`, the bcrypt
hash of the password if one was given, `accessCount = 0` and
`isActive = true`, and save it. -/
def createShare (uid : Nat) (idStr : List Char) (ttlStr : Option (List Char))
    (pwd : Option (List Char)) (token : List Char) (now : Nat) (st : Store) :
    CreateShareResult × Store :=
  match parseDigits idStr, parseOptDigits ttlStr, pwdLenOk pwd with
  | some fid, some ttl, true =>
    (match findFile st fid with
     | none => (.notFound, st)
     | some f =>
       if ¬ (tenantHead uid).isPrefixOf f.key then (.forbidden, st)
       else
         let ttlSeconds := ttlOrDefault ttl
         let expiresAt := now + ttlSeconds * 1000
         let hashed := pwd.map bcryptHashModel
         let link : ShareLink :=
           ⟨freshShareId st, token, fid, expiresAt, hashed, 0, true, now⟩
         if st.shares.any (fun l => l.token = token) then (.serverError, st)
         else
           (.created ⟨shareUrlOf [] token, token, expiresAt, pwd.isSome, ttlSeconds⟩,
             { st with shares := st.shares ++ [link] }))
  | _, _, _ => (.badRequest, st)

/-- A share link as serialized by `GET /files/:id/shares`
(adds `createdAt` to `ShareInfo`). -/
structure ShareInfoFull where
  token : List Char
  shareUrl : List Char
  expiresAt : Nat
  hasPassword : Bool
  accessCount : Nat
  createdAt : Nat
deriving Repr, DecidableEq

/-- Outcome of `GET /files/:id/shares`. -/
inductive ListSharesResult where
  /-- 400 `Invalid file ID` (`parseInt` gave `NaN`). -/
  | badRequest
  /-- 404 `File not found`. -/
  | notFound
  /-- 403 `Access denied. This file belongs to another user.` -/
  | forbidden
  /-- 200 with the active, unexpired share links. -/
  | ok (shares : List ShareInfoFull)
deriving Repr, DecidableEq

/-- Embedding of `GET /files/:id/shares` of `createFilesRouter`: the
id goes through bare `parseInt`, then look up, ownership-check, and
list the active unexpired links newest first. -/
def listShares (uid : Nat) (idStr : List Char) (st : Store) (now : Nat)
    (baseUrl : List Char) : ListSharesResult :=
  match jsParseInt idStr with
  | none => .badRequest
  | some n =>
    match st.files.find? (fun f => (f.id : Int) = n) with
    | none => .notFound
    | some f =>
      if ¬ (tenantHead uid).isPrefixOf f.key then .forbidden
      else
        .ok ((activeShares st f.id now).map (fun l =>
          ⟨l.token, shareUrlOf baseUrl l.token, l.expiresAt, l.password.isSome,
            l.accessCount, l.createdAt⟩))

/-- The raw query string of `GET /files`.  The two date bounds are
modelled as already-read epoch timestamps: `z.string().datetime()`
only validates the ISO format, which the claims do not touch. -/
structure RawListQuery where
  search : Option (List Char)
  searchPath : Option (List Char)
  mime : Option (List Char)
  minSize : Option (List Char)
  maxSize : Option (List Char)
  dateFrom : Option Nat
  dateTo : Option Nat
  page : Option (List Char)
  limit : Option (List Char)
deriving Repr, DecidableEq

/-- `listFilesQuerySchema` output: numbers parsed, `page` defaulted
from `'1'` and `limit` from `'50'`. -/
structure ListQuery where
  search : Option (List Char)
  searchPath : Option (List Char)
  mime : Option (List Char)
  minSize : Option Nat
  maxSize : Option Nat
  dateFrom : Option Nat
  dateTo : Option Nat
  page : Nat
  limit : Nat
deriving Repr, DecidableEq

/-- Embedding of `listFilesQuerySchema.safeParse`: `minSize`, `maxSize`,
`page` and `limit` must match `/^\d+$/` (after the `'1'` / `'50'`
defaults for the last two); text filters pass through. -/
def parseListQuery (q : RawListQuery) : Option ListQuery :=
  match parseOptDigits q.minSize, parseOptDigits q.maxSize,
      parseDigits (q.page.getD "1".toList),
      parseDigits (q.limit.getD "50".toList) with
  | some mn, some mx, some pg, some lim =>
    some ⟨q.search, q.searchPath, q.mime, mn, mx, q.dateFrom, q.dateTo, pg, lim⟩
  | _, _, _, _ => none

/-- The `where` object of `GET /files` evaluated on one row:
`` key: Like(`${userId}/%`) ``, `` name: Like(`%${search}%`) ``,
`` path: Like(`%${searchPath}%`) `` (`NULL` paths never match), exact
`mime`, and inclusive size/date ranges (`Between` /
`MoreThanOrEqual` / `LessThanOrEqual`).  A present-but-empty text
filter is skipped, as the source's `if (search)` truthiness checks do.
The raw `search` / `searchPath` values are embedded in the patterns
exactly as the source does — without `escapeLikeString`.  (ASCII case
folding of `LIKE` is omitted; no claim depends on it.) -/
def matchesWhere (uid : Nat) (q : ListQuery) (f : FileRec) : Bool :=
  likeMatch (natChars uid ++ ['/', '%']) f.key &&
  (match q.search with
   | none => true
   | some [] => true
   | some s => likeMatch (buildNamePattern s) f.name) &&
  (match q.searchPath with
   | none => true
   | some [] => true
   | some s =>
     match f.path with
     | none => false
     | some p => likeMatch (buildNamePattern s) p) &&
  (match q.mime with
   | none => true
   | some [] => true
   | some m => f.mime = m) &&
  (match q.minSize, q.maxSize with
   | some a, some b => a ≤ f.size && f.size ≤ b
   | some a, none => a ≤ f.size
   | none, some b => f.size ≤ b
   | none, none => true) &&
  (match q.dateFrom, q.dateTo with
   | some a, some b => a ≤ f.createdAt && f.createdAt ≤ b
   | some a, none => a ≤ f.createdAt
   | none, some b => f.createdAt ≤ b
   | none, none => true)

/-- `Math.ceil(total / limit)` for a positive `limit` (for `limit = 0`
JavaScript produces `Infinity`, which has no `Nat` counterpart; every
statement about this function assumes `0 < limit`). -/
def jsCeilDiv (total limit : Nat) : Nat :=
  (total + limit - 1) / limit

/-- The `pagination` object of the list response. -/
structure Pagination where
  page : Nat
  limit : Nat
  total : Nat
  totalPages : Nat
deriving Repr, DecidableEq

/-- One element of the `files` array of the list response. -/
structure ListItem where
  id : Nat
  name : List Char
  customName : Option (List Char)
  key : List Char
  path : Option (List Char)
  fullPath : List Char
  mime : List Char
  size : Nat
  metadata : Option (List Char)
  createdAt : Nat
  shareLinks : List ShareInfo
deriving Repr, DecidableEq

/-- The 200 body of `GET /files`. -/
structure ListFilesPayload where
  files : List ListItem
  pagination : Pagination
deriving Repr, DecidableEq

/-- Serialize one file row for the list response. -/
def listItemOf (st : Store) (now : Nat) (baseUrl : List Char) (f : FileRec) :
    ListItem :=
  ⟨f.id, f.name, f.customName, f.key, f.path, getFullPath f.path f.name,
    f.mime, f.size, f.metadata, f.createdAt,
    (activeShares st f.id now).map (shareInfoOf baseUrl)⟩

/-- Outcome of `GET /files`. -/
inductive ListFilesResult where
  /-- 400, `listFilesQuerySchema` failure. -/
  | badRequest
  /-- 200 with rows and pagination metadata. -/
  | ok (payload : ListFilesPayload)
deriving Repr, DecidableEq

/-- Embedding of `GET /files` of `createFilesRouter`: validate the
query, filter by the `where` conditions, count the total, fetch the
page `skip = (page - 1) * limit, take = limit` of the
creation-time-descending ordering, attach each row's active share
links, and report `totalPages = Math.ceil(total / limit)`.
`((page : Int) - 1).toNat` clamps the negative offset that `page = 0`
produces to `0`, as the SQL engine does. -/
def listFiles (uid : Nat) (raw : RawListQuery) (st : Store) (now : Nat)
    (baseUrl : List Char) : ListFilesResult :=
  match parseListQuery raw with
  | none => .badRequest
  | some q =>
    let matched := st.files.filter (matchesWhere uid q)
    let total := matched.length
    let skip := (((q.page : Int) - 1) * q.limit).toNat
    let rows := ((sortFilesDesc matched).drop skip).take q.limit
    .ok ⟨rows.map (listItemOf st now baseUrl),
      ⟨q.page, q.limit, total, jsCeilDiv total q.limit⟩⟩

/-- An operation of the system that touches the metadata store
(share access, revocation, share creation, file deletion, upload),
with its request data and injected collaborators. -/
inductive Op where
  | accessOp (cmp : List Char → List Char → Bool)
      (url : List Char → List Char) (saveOk : Bool)
      (tok : List Char) (pw : Option (List Char)) (now : Nat)
  | revokeOp (tok : List Char)
  | createShareOp (uid : Nat) (idStr : List Char) (ttlStr : Option (List Char))
      (pwd : Option (List Char)) (token : List Char) (now : Nat)
  | deleteFileOp (uid : Nat) (idStr : List Char)
  | uploadOp (uid : Nat) (inp : UploadInput) (ts : Nat)

/-- The store after one operation. -/
def step (st : Store) : Op → Store
  | .accessOp cmp url sv tok pw now => (accessShare ⟨cmp, url, sv⟩ st tok pw now).2
  | .revokeOp tok => (revokeShare st tok).2
  | .createShareOp uid idStr ttlStr pwd token now =>
    (createShare uid idStr ttlStr pwd token now st).2
  | .deleteFileOp uid idStr => (deleteFile uid idStr st).2
  | .uploadOp uid inp ts => (uploadFile uid inp ts st).2

/-- The store after a sequence of operations. -/
def run (st : Store) (ops : List Op) : Store :=
  ops.foldl step st

/-- The operation does not mint a share link under token `t`.
`generateShareToken` draws a fresh `share_` + 64-hex-character value
from a CSPRNG on every call (≥ 128 bits of entropy), so an operation
sequence reusing an existing token does not occur; this predicate is
that freshness assumption. -/
def opAvoids (t : List Char) : Op → Prop
  | .createShareOp _ _ _ _ token _ => token ≠ t
  | _ => True

/-- The `share_links.token` column is unique. -/
def tokensUnique (st : Store) : Prop :=
  st.shares.Pairwise (fun a b => a.token ≠ b.token)

/-- Every link stored under token `t` is revoked. -/
def RevokedT (t : List Char) (st : Store) : Prop :=
  ∀ l ∈ st.shares, l.token = t → l.isActive = false

/-- Fixture: a file of tenant 7. -/
def demoFile : FileRec :=
  ⟨1, "a".toList, none, "7/a".toList, none, "t".toList, 3, none, 0⟩

/-- Fixture: an active passwordless link on `demoFile`, expiring at 100. -/
def demoLink : ShareLink :=
  ⟨1, "share_t".toList, 1, 100, none, 0, true, 0⟩

/-- Fixture store. -/
def demoStore : Store := ⟨[demoFile], [demoLink]⟩

/-- Fixture collaborators: the bcrypt model comparator, the identity
URL generator, and a succeeding save. -/
def demoDeps : Deps :=
  ⟨fun p h => h = bcryptHashModel p, fun k => k, true⟩

/-- Fixture collaborators whose increment-persisting save fails. -/
def demoDepsNoSave : Deps :=
  ⟨fun p h => h = bcryptHashModel p, fun k => k, false⟩

/-- C7: `normalizePath` trims whitespace and strips leading/trailing
slashes from the raw path; an absent input or an empty stripped result
yields "no path" (`null`) rather than an error; it throws
`InvalidPath` exactly when the stripped string contains `..`, contains
`//`, or contains a character outside `[A-Za-z0-9/_-]`; in particular
`"../../etc"` and `"images//avatars"` fail while `"/images/avatars/"`
yields `"images/avatars"`. -/
theorem c7_normalizePath_correct :
    (normalizePath none = .ok none) ∧
    (∀ p q, normalizePath (some p) = .ok (some q) → q = stripSlashes (jsTrim p)) ∧
    (∀ p, stripSlashes (jsTrim p) = [] → normalizePath (some p) = .ok none) ∧
    (∀ p, normalizePath (some p) = .invalidPath ↔
      (containsSub ['.', '.'] (stripSlashes (jsTrim p)) = true ∨
       containsSub ['/', '/'] (stripSlashes (jsTrim p)) = true ∨
       (stripSlashes (jsTrim p)).all pathCharAllowed = false)) ∧
    (normalizePath (some "../../etc".toList) = .invalidPath) ∧
    (normalizePath (some "images//avatars".toList) = .invalidPath) ∧
    (normalizePath (some "/images/avatars/".toList) =
      .ok (some "images/avatars".toList)) := by
  refine ⟨rfl, ?_, ?_, ?_, by decide, by decide, by decide⟩
  · intro p q h
    by_cases hp : p = []
    · subst hp
      simp [normalizePath] at h
    · simp only [normalizePath, if_neg hp] at h
      repeat' split at h
      all_goals simp_all
  · intro p h0
    by_cases hp : p = []
    · subst hp
      decide
    · simp [normalizePath, if_neg hp, h0]
  · intro p
    by_cases hp : p = []
    · subst hp
      decide
    · simp only [normalizePath, if_neg hp]
      split <;> rename_i hcond
      · rw [hcond]
        decide
      · repeat' split
        all_goals simp_all

/-- C8 (code evaluated at the failing input): `escapeLikeString` is
never applied by the list-files search filter; for `search = "%"` the
route builds the pattern `%%%`, which matches a name containing no
`%` at all — the caller's metacharacter acts as a wildcard — whereas
the escaped pattern `%\%%` matches exactly the names containing a
literal `%`. -/
theorem c8_unescaped_search_wildcard :
    buildNamePattern "%".toList = "%%%".toList ∧
    likeMatch (buildNamePattern "%".toList) "abc".toList = true ∧
    containsSub "%".toList "abc".toList = false ∧
    buildNamePattern "%".toList ≠ '%' :: escapeLikeString "%".toList ++ ['%'] ∧
    likeMatch ('%' :: escapeLikeString "%".toList ++ ['%']) "abc".toList = false ∧
    likeMatch ('%' :: escapeLikeString "%".toList ++ ['%']) "a%c".toList = true := by
  decide

/-- C2: the public-access gate evaluates revocation before expiry and
expiry before the password check: an inactive link fails `Revoked`
whatever its expiry; an active link with `now > expiresAt` fails
`Expired` whatever password was supplied; and the stored hash is
consulted (the bcrypt comparator is invoked) only when the link is
active and unexpired — on every other input the outcome is the same
for any two comparators. -/
theorem c2_gate_check_order :
    (∀ d st tok pw now link, tokenWellFormed tok = true →
      findShare st tok = some link → link.isActive = false →
      (accessShare d st tok pw now).1 = .revoked) ∧
    (∀ d st tok pw now link, tokenWellFormed tok = true →
      findShare st tok = some link → link.isActive = true →
      link.expiresAt < now →
      (accessShare d st tok pw now).1 = .expired) ∧
    (∀ cmp cmp2 url sv st tok pw now,
      (∀ link, findShare st tok = some link →
        link.isActive = false ∨ link.expiresAt < now) →
      accessShare ⟨cmp, url, sv⟩ st tok pw now =
        accessShare ⟨cmp2, url, sv⟩ st tok pw now) := by
  refine ⟨?_, ?_, ?_⟩
  · intro d st tok pw now link htok hfind hact
    simp [accessShare, htok, hfind, hact]
  · intro d st tok pw now link htok hfind hact hexp
    simp [accessShare, htok, hfind, hact, hexp]
  · intro cmp cmp2 url sv st tok pw now h
    by_cases htok : tokenWellFormed tok = true
    · cases hfind : findShare st tok with
      | none => simp [accessShare, htok, hfind]
      | some link =>
        rcases h link hfind with hact | hexp
        · simp [accessShare, htok, hfind, hact]
        · by_cases hact : link.isActive
          · simp [accessShare, htok, hfind, hact, hexp]
          · simp [accessShare, htok, hfind, hact]
    · simp [accessShare, htok]

/-- C3 counterexample: an access at exactly `now = expiresAt` on an
active link is granted, not rejected as expired — the code's check is
the strict `new Date() > shareLink.expiresAt`. -/
theorem c3_boundary_access_granted :
    demoLink.expiresAt = 100 ∧ demoLink.isActive = true ∧
    (accessShare demoDeps demoStore "share_t".toList none 100).1 =
      .granted ⟨1, "a".toList, none, "t".toList, 3, 0⟩ "7/a".toList 100 1 ∧
    (accessShare demoDeps demoStore "share_t".toList none 100).1 ≠ .expired := by
  decide

/-- C3 amended: the gate fails with `Expired` for an active link
exactly when `now > expiresAt`; at `now ≤ expiresAt` (the boundary
included) the outcome is never `Expired`. -/
theorem c3_expiry_is_strict :
    (∀ d st tok pw now link, tokenWellFormed tok = true →
      findShare st tok = some link → link.isActive = true →
      link.expiresAt < now →
      (accessShare d st tok pw now).1 = .expired) ∧
    (∀ d st tok pw now link, findShare st tok = some link →
      now ≤ link.expiresAt →
      (accessShare d st tok pw now).1 ≠ .expired) ∧
    (∀ d st tok pw now, findShare st tok = none →
      (accessShare d st tok pw now).1 ≠ .expired) := by
  refine ⟨?_, ?_, ?_⟩
  · intro d st tok pw now link htok hfind hact hexp
    simp [accessShare, htok, hfind, hact, hexp]
  · intro d st tok pw now link hfind hle
    have hno : ¬ now > link.expiresAt := by omega
    by_cases htok : tokenWellFormed tok = true
    · by_cases hact : link.isActive
      · cases hpw : link.password with
        | none =>
          simp [accessShare, htok, hfind, hact, hno, hpw]
          repeat' split
          all_goals simp
        | some hsh =>
          cases pw with
          | none => simp [accessShare, htok, hfind, hact, hno, hpw]
          | some p =>
            by_cases hcmp : d.cmp p hsh = true
            · simp [accessShare, htok, hfind, hact, hno, hpw, hcmp]
              repeat' split
              all_goals simp
            · simp [accessShare, htok, hfind, hact, hno, hpw, hcmp]
      · simp [accessShare, htok, hfind, hact]
    · simp [accessShare, htok]
  · intro d st tok pw now hfind
    by_cases htok : tokenWellFormed tok = true
    · simp [accessShare, htok, hfind]
    · simp [accessShare, htok]

/-- C5: every access attempt that fails at one of the six gate stages
(malformed token, not found, revoked, expired, password required,
invalid password) leaves the store — and so the access count —
unchanged; a grant answers with `accessCount = stored + 1` and the
persisted store carries exactly that increment on the accessed link. -/
theorem c5_access_count_semantics :
    (∀ d st tok pw now,
      ((accessShare d st tok pw now).1).isLocalFailure = true →
      (accessShare d st tok pw now).2 = st) ∧
    (∀ d st tok pw now link f u e c,
      findShare st tok = some link →
      (accessShare d st tok pw now).1 = .granted f u e c →
      c = link.accessCount + 1 ∧
      (accessShare d st tok pw now).2 =
        { st with shares := st.shares.map (fun s =>
            if s.id = link.id
            then { link with accessCount := link.accessCount + 1 } else s) }) := by
  constructor
  · intro d st tok pw now h
    simp only [accessShare] at h ⊢
    repeat' split at h
    all_goals repeat' split
    all_goals simp_all [AccessResult.isLocalFailure]
  · intro d st tok pw now link f u e c hfind hres
    by_cases htok : tokenWellFormed tok = true
    · by_cases hact : link.isActive
      · by_cases hexp : link.expiresAt < now
        · simp [accessShare, htok, hfind, hact, hexp] at hres
        · by_cases hsv : d.saveOk = true
          · cases hfile : st.files.find? (fun g => g.id = link.fileId) with
            | none =>
              cases hpw : link.password with
              | none =>
                simp [accessShare, htok, hfind, hact, hexp, hpw, hsv, hfile] at hres
              | some hsh =>
                cases pw with
                | none =>
                  simp [accessShare, htok, hfind, hact, hexp, hpw] at hres
                | some p =>
                  by_cases hcmp : d.cmp p hsh = true
                  · simp [accessShare, htok, hfind, hact, hexp, hpw, hcmp, hsv,
                      hfile] at hres
                  · simp [accessShare, htok, hfind, hact, hexp, hpw, hcmp] at hres
            | some fl =>
              cases hpw : link.password with
              | none =>
                simp [accessShare, htok, hfind, hact, hexp, hpw, hsv, hfile] at hres
                obtain ⟨-, -, -, hc⟩ := hres
                subst hc
                simp [accessShare, htok, hfind, hact, hexp, hpw, hsv, hfile]
              | some hsh =>
                cases pw with
                | none =>
                  simp [accessShare, htok, hfind, hact, hexp, hpw] at hres
                | some p =>
                  by_cases hcmp : d.cmp p hsh = true
                  · simp [accessShare, htok, hfind, hact, hexp, hpw, hcmp, hsv,
                      hfile] at hres
                    obtain ⟨-, -, -, hc⟩ := hres
                    subst hc
                    simp [accessShare, htok, hfind, hact, hexp, hpw, hcmp, hsv, hfile]
                  · simp [accessShare, htok, hfind, hact, hexp, hpw, hcmp] at hres
          · cases hpw : link.password with
            | none =>
              simp [accessShare, htok, hfind, hact, hexp, hpw, hsv] at hres
            | some hsh =>
              cases pw with
              | none =>
                simp [accessShare, htok, hfind, hact, hexp, hpw] at hres
              | some p =>
                by_cases hcmp : d.cmp p hsh = true
                · simp [accessShare, htok, hfind, hact, hexp, hpw, hcmp, hsv] at hres
                · simp [accessShare, htok, hfind, hact, hexp, hpw, hcmp] at hres
      · simp [accessShare, htok, hfind, hact] at hres
    · simp [accessShare, htok] at hres

/-- C6 counterexample: at an input where the grant decision passes
(with a working save the access is granted), a failing persist of the
access-count increment makes the whole request fail with the 500 of
the catch block — no retrieval handle is returned. -/
theorem c6_failed_increment_write_fails_request :
    (accessShare demoDeps demoStore "share_t".toList none 5).1 =
      .granted ⟨1, "a".toList, none, "t".toList, 3, 0⟩ "7/a".toList 100 1 ∧
    (accessShare demoDepsNoSave demoStore "share_t".toList none 5).1 =
      .serverError ∧
    ((accessShare demoDepsNoSave demoStore "share_t".toList none 5).1).isGranted
      = false := by
  decide

/-- C6 amended: when every gate check passes but the write persisting
the increment fails, the handler's catch turns the request into a 500
`serverError`: the request does not succeed, no retrieval handle is
returned, and the store is unchanged. -/
theorem c6_failed_increment_write_returns_500 :
    ∀ cmp url st tok pw now f u e c,
      (accessShare ⟨cmp, url, true⟩ st tok pw now).1 = .granted f u e c →
      accessShare ⟨cmp, url, false⟩ st tok pw now = (.serverError, st) := by
  intro cmp url st tok pw now f u e c h
  by_cases htok : tokenWellFormed tok = true
  · cases hfind : findShare st tok with
    | none => simp [accessShare, htok, hfind] at h
    | some link =>
      by_cases hact : link.isActive
      · by_cases hexp : now > link.expiresAt
        · simp [accessShare, htok, hfind, hact, hexp] at h
        · cases hpw : link.password with
          | none => simp [accessShare, htok, hfind, hact, hexp, hpw]
          | some hsh =>
            cases pw with
            | none => simp [accessShare, htok, hfind, hact, hexp, hpw] at h
            | some p =>
              by_cases hcmp : cmp p hsh = true
              · simp [accessShare, htok, hfind, hact, hexp, hpw, hcmp]
              · simp [accessShare, htok, hfind, hact, hexp, hpw, hcmp] at h
      · simp [accessShare, htok, hfind, hact] at h
  · simp [accessShare, htok] at h

/-- Fixture: a revoked link on `demoFile` (same expiry as `demoLink`). -/
def demoRevokedLink : ShareLink :=
  ⟨2, "share_r".toList, 1, 100, none, 0, false, 0⟩

/-- Fixture store holding both the active and the revoked link. -/
def demoStore2 : Store := ⟨[demoFile], [demoLink, demoRevokedLink]⟩

/-- C7 witness: the third example evaluated through the theorem. -/
theorem c7_normalizePath_correct_witness :
    "images/avatars".toList = stripSlashes (jsTrim "/images/avatars/".toList) :=
  c7_normalizePath_correct.2.1 "/images/avatars/".toList
    "images/avatars".toList (by decide)

/-- C2 witness: the revoked fixture link is rejected as `Revoked`. -/
theorem c2_gate_check_order_witness :
    (accessShare demoDeps demoStore2 "share_r".toList none 5).1 = .revoked :=
  c2_gate_check_order.1 demoDeps demoStore2 "share_r".toList none 5
    demoRevokedLink (by decide) (by decide) (by decide)

/-- C3 witness: the boundary access on the fixture is not `Expired`. -/
theorem c3_expiry_is_strict_witness :
    (accessShare demoDeps demoStore "share_t".toList none 100).1 ≠ .expired :=
  c3_expiry_is_strict.2.1 demoDeps demoStore "share_t".toList none 100
    demoLink (by decide) (by decide)

/-- C5 witness: the granted fixture access answers count `1 = 0 + 1`
and persists exactly that increment. -/
theorem c5_access_count_semantics_witness :
    1 = demoLink.accessCount + 1 ∧
    (accessShare demoDeps demoStore "share_t".toList none 5).2 =
      { demoStore with shares := demoStore.shares.map (fun s =>
          if s.id = demoLink.id
          then { demoLink with accessCount := demoLink.accessCount + 1 }
          else s) } :=
  c5_access_count_semantics.2 demoDeps demoStore "share_t".toList none 5
    demoLink ⟨1, "a".toList, none, "t".toList, 3, 0⟩ "7/a".toList 100 1
    (by decide) (by decide)

/-- C6 witness: the amended behavior evaluated on the fixture. -/
theorem c6_failed_increment_write_returns_500_witness :
    accessShare demoDepsNoSave demoStore "share_t".toList none 5 =
      (.serverError, demoStore) := by
  exact c6_failed_increment_write_returns_500
    (fun p h => h = bcryptHashModel p) (fun k => k) demoStore
    "share_t".toList none 5 ⟨1, "a".toList, none, "t".toList, 3, 0⟩
    "7/a".toList 100 1 (by decide)

/-- The update that a granted access applies to the share table keeps
every link under token `t` revoked. -/
theorem revokedT_map_increment (t : List Char) (st : Store) (link : ShareLink)
    (h : RevokedT t st) (hmem : link ∈ st.shares) (hact : link.isActive = true) :
    RevokedT t { st with shares := st.shares.map (fun s =>
      if s.id = link.id
      then { link with accessCount := link.accessCount + 1 } else s) } := by
  intro l hl hlt
  rcases List.mem_map.mp hl with ⟨s, hs, hfs⟩
  by_cases hid : s.id = link.id
  · rw [if_pos hid] at hfs
    rw [← hfs] at hlt
    have hltok : link.token = t := by simpa using hlt
    have hfalse := h link hmem hltok
    rw [hact] at hfalse
    cases hfalse
  · rw [if_neg hid] at hfs
    subst hfs
    exact h s hs hlt

/-- A public access attempt preserves "every link under `t` is
revoked". -/
theorem revokedT_access (t : List Char) (d : Deps) (st : Store)
    (tok : List Char) (pw : Option (List Char)) (now : Nat)
    (h : RevokedT t st) : RevokedT t (accessShare d st tok pw now).2 := by
  by_cases htok : tokenWellFormed tok = true
  · cases hfind : findShare st tok with
    | none => simpa [accessShare, htok, hfind] using h
    | some link =>
      by_cases hact : link.isActive
      · by_cases hexp : link.expiresAt < now
        · simpa [accessShare, htok, hfind, hact, hexp] using h
        · have hmem := List.mem_of_find?_eq_some hfind
          have hupd := revokedT_map_increment t st link h hmem hact
          cases hpw : link.password with
          | none =>
            by_cases hsv : d.saveOk = true
            · cases hfile : st.files.find? (fun g => g.id = link.fileId) with
              | none =>
                simpa [accessShare, htok, hfind, hact, hexp, hpw, hsv, hfile]
                  using hupd
              | some fl =>
                simpa [accessShare, htok, hfind, hact, hexp, hpw, hsv, hfile]
                  using hupd
            · simpa [accessShare, htok, hfind, hact, hexp, hpw, hsv] using h
          | some hsh =>
            cases pw with
            | none => simpa [accessShare, htok, hfind, hact, hexp, hpw] using h
            | some p =>
              by_cases hcmp : d.cmp p hsh = true
              · by_cases hsv : d.saveOk = true
                · cases hfile : st.files.find? (fun g => g.id = link.fileId) with
                  | none =>
                    simpa [accessShare, htok, hfind, hact, hexp, hpw, hcmp, hsv,
                      hfile] using hupd
                  | some fl =>
                    simpa [accessShare, htok, hfind, hact, hexp, hpw, hcmp, hsv,
                      hfile] using hupd
                · simpa [accessShare, htok, hfind, hact, hexp, hpw, hcmp, hsv]
                    using h
              · simpa [accessShare, htok, hfind, hact, hexp, hpw, hcmp] using h
      · simpa [accessShare, htok, hfind, hact] using h
  · simpa [accessShare, htok] using h

/-- A revocation (of any token) preserves "every link under `t` is
revoked". -/
theorem revokedT_revoke (t tok : List Char) (st : Store) (h : RevokedT t st) :
    RevokedT t (revokeShare st tok).2 := by
  by_cases htok : tokenWellFormed tok = true
  · cases hfind : findShare st tok with
    | none => simpa [revokeShare, htok, hfind] using h
    | some link =>
      simp only [revokeShare, htok, hfind]
      simp only [not_true, if_false]
      intro l hl hlt
      rcases List.mem_map.mp hl with ⟨s, hs, hfs⟩
      by_cases hid : s.id = link.id
      · rw [if_pos hid] at hfs
        rw [← hfs]
      · rw [if_neg hid] at hfs
        subst hfs
        exact h s hs hlt
  · simpa [revokeShare, htok] using h

/-- A share creation under a token other than `t` preserves "every
link under `t` is revoked". -/
theorem revokedT_create (t : List Char) (uid : Nat) (idStr : List Char)
    (ttlStr pwd : Option (List Char)) (token : List Char) (now : Nat)
    (st : Store) (h : RevokedT t st) (hne : token ≠ t) :
    RevokedT t (createShare uid idStr ttlStr pwd token now st).2 := by
  unfold createShare
  repeat' split
  all_goals try exact h
  intro l hl hlt
  rcases List.mem_append.mp hl with hs | hs
  · exact h l hs hlt
  · have hl2 : l.token = token := by
      rcases List.mem_singleton.mp hs with rfl
      rfl
    exact absurd (hl2 ▸ hlt) hne

/-- A file deletion preserves "every link under `t` is revoked". -/
theorem revokedT_delete (t : List Char) (uid : Nat) (idStr : List Char)
    (st : Store) (h : RevokedT t st) :
    RevokedT t (deleteFile uid idStr st).2 := by
  unfold deleteFile
  repeat' split
  all_goals try exact h
  intro l hl hlt
  exact h l (List.mem_filter.mp hl).1 hlt

/-- An upload preserves "every link under `t` is revoked" (it touches
only the file table). -/
theorem revokedT_upload (t : List Char) (uid : Nat) (inp : UploadInput)
    (ts : Nat) (st : Store) (h : RevokedT t st) :
    RevokedT t (uploadFile uid inp ts st).2 := by
  unfold uploadFile
  repeat' split
  all_goals exact h

/-- Every operation that avoids minting token `t` preserves "every
link under `t` is revoked". -/
theorem revokedT_step (t : List Char) (st : Store) (op : Op)
    (h : RevokedT t st) (hav : opAvoids t op) : RevokedT t (step st op) := by
  cases op with
  | accessOp cmp url sv tok pw now => exact revokedT_access t ⟨cmp, url, sv⟩ st tok pw now h
  | revokeOp tok => exact revokedT_revoke t tok st h
  | createShareOp uid idStr ttlStr pwd token now =>
    exact revokedT_create t uid idStr ttlStr pwd token now st h hav
  | deleteFileOp uid idStr => exact revokedT_delete t uid idStr st h
  | uploadOp uid inp ts => exact revokedT_upload t uid inp ts st h

/-- A whole operation sequence avoiding token `t` preserves "every
link under `t` is revoked". -/
theorem revokedT_run (t : List Char) (ops : List Op) (st : Store)
    (h : RevokedT t st) (hav : ∀ op ∈ ops, opAvoids t op) :
    RevokedT t (run st ops) := by
  induction ops generalizing st with
  | nil => exact h
  | cons op rest ih =>
    exact ih (step st op) (revokedT_step t st op h (hav op (by simp)))
      (fun o ho => hav o (by simp [ho]))

/-- When every link under `t` is revoked, a public access via `t` is
never granted. -/
theorem access_not_granted_of_revokedT (t : List Char) (st : Store) (d : Deps)
    (pw : Option (List Char)) (now : Nat) (h : RevokedT t st) :
    ((accessShare d st t pw now).1).isGranted = false := by
  by_cases htok : tokenWellFormed t = true
  · cases hfind : findShare st t with
    | none => simp [accessShare, htok, hfind, AccessResult.isGranted]
    | some link =>
      have hmem := List.mem_of_find?_eq_some hfind
      have htk : link.token = t := by simpa using List.find?_some hfind
      have hina := h link hmem htk
      simp [accessShare, htok, hfind, hina, AccessResult.isGranted]
  · simp [accessShare, htok, AccessResult.isGranted]

/-- A successful revocation of `t` leaves every stored link under `t`
revoked (token uniqueness of the `share_links` table assumed). -/
theorem revokedT_of_revoke (t : List Char) (st : Store)
    (hu : tokensUnique st) (htok : tokenWellFormed t = true) :
    RevokedT t (revokeShare st t).2 := by
  cases hfind : findShare st t with
  | none =>
    have hnone := List.find?_eq_none.mp hfind
    simp only [revokeShare, htok, hfind]
    simp only [not_true, if_false]
    intro l hl hlt
    exact absurd (by simp [hlt]) (hnone l hl)
  | some link =>
    have hmem := List.mem_of_find?_eq_some hfind
    have htk : link.token = t := by simpa using List.find?_some hfind
    simp only [revokeShare, htok, hfind]
    simp only [not_true, if_false]
    intro l hl hlt
    rcases List.mem_map.mp hl with ⟨s, hs, hfs⟩
    by_cases hid : s.id = link.id
    · rw [if_pos hid] at hfs
      rw [← hfs]
    · rw [if_neg hid] at hfs
      subst hfs
      by_cases hsl : s = link
      · exact absurd (congrArg ShareLink.id hsl) hid
      · have hsym : Symmetric (fun a b : ShareLink => a.token ≠ b.token) :=
          fun a b hab hba => hab hba.symm
        have := hu.forall hsym hs hmem hsl
        exact absurd (hlt.trans htk.symm) this

/-- C4: revocation is terminal.  After a successful revocation of
token `t`, for any subsequent sequence of system operations (public
accesses, revocations, share creations under fresh tokens, file
deletions, uploads) every link stored under `t` still has
`isActive = false` — no operation flips it back — and a public access
via `t` is never granted, whatever comparator, URL generator, save
outcome, password and time.  Token uniqueness of the table and
freshness of generated tokens (`opAvoids`) are the two store/CSPRNG
facts assumed. -/
theorem c4_revocation_terminal :
    ∀ st t ops, tokensUnique st → tokenWellFormed t = true →
      (∀ op ∈ ops, opAvoids t op) →
      RevokedT t (run (revokeShare st t).2 ops) ∧
      ∀ cmp url sv pw now,
        ((accessShare ⟨cmp, url, sv⟩ (run (revokeShare st t).2 ops)
          t pw now).1).isGranted = false := by
  intro st t ops hu htok hav
  have h1 := revokedT_of_revoke t st hu htok
  have h2 := revokedT_run t ops _ h1 hav
  exact ⟨h2, fun cmp url sv pw now =>
    access_not_granted_of_revokedT t _ ⟨cmp, url, sv⟩ pw now h2⟩

/-- Fixture operation sequence: a public access on the revoked token,
a fresh share creation on the same file, a repeated revocation. -/
def demoOps : List Op :=
  [.accessOp (fun p h => h = bcryptHashModel p) (fun k => k) true
      "share_t".toList none 5,
   .createShareOp 7 "1".toList none none "share_u".toList 5,
   .revokeOp "share_t".toList]

/-- C4 witness: after revoking the fixture link and running the
fixture operations, access via the token is still not granted. -/
theorem c4_revocation_terminal_witness :
    ((accessShare demoDeps
      (run (revokeShare demoStore "share_t".toList).2 demoOps)
      "share_t".toList none 5).1).isGranted = false := by
  exact (c4_revocation_terminal demoStore "share_t".toList demoOps
    (by simp [tokensUnique, demoStore])
    (by decide)
    (by
      intro op hop
      simp only [demoOps, List.mem_cons, List.not_mem_nil, or_false] at hop
      rcases hop with rfl | rfl | rfl
      · trivial
      · exact (by decide : "share_u".toList ≠ "share_t".toList)
      · trivial)).2 _ _ _ none 5

/-- `xs ++ [c]` is a Boolean prefix of `xs ++ c :: rest`. -/
theorem isPrefixOf_append_cons (xs rest : List Char) (c : Char) :
    (xs ++ [c]).isPrefixOf (xs ++ c :: rest) = true := by
  induction xs with
  | nil => simp [List.isPrefixOf]
  | cons a as ih => simp [List.isPrefixOf, ih]

/-- C1: tenant isolation via the storage-key scope.  Every record the
upload handler creates carries a key beginning with `{tenantId}/`, and
each of the four per-file operations — get details, delete, create
share link, list share links — answers `Forbidden` (a bare 403
constructor, carrying none of the file's fields) on a record whose key
does not begin with the authenticated tenant's scope, leaving the
store untouched, while a nonexistent record id answers `NotFound`. -/
theorem c1_tenant_isolation :
    (∀ uid inp ts st row st2, uploadFile uid inp ts st = (.created row, st2) →
      (tenantHead uid).isPrefixOf row.key = true ∧ row ∈ st2.files) ∧
    (∀ uid idStr st now g b fid f, parseDigits idStr = some fid →
      findFile st fid = some f →
      (tenantHead uid).isPrefixOf f.key = false →
      getFileDetails uid idStr st now g b = .forbidden) ∧
    (∀ uid idStr st fid f, parseDigits idStr = some fid →
      findFile st fid = some f →
      (tenantHead uid).isPrefixOf f.key = false →
      deleteFile uid idStr st = (.forbidden, st)) ∧
    (∀ uid idStr ttlStr pwd token now st fid ttl f,
      parseDigits idStr = some fid → parseOptDigits ttlStr = some ttl →
      pwdLenOk pwd = true →
      findFile st fid = some f →
      (tenantHead uid).isPrefixOf f.key = false →
      createShare uid idStr ttlStr pwd token now st = (.forbidden, st)) ∧
    (∀ uid idStr st now b n f, jsParseInt idStr = some n →
      st.files.find? (fun g => (g.id : Int) = n) = some f →
      (tenantHead uid).isPrefixOf f.key = false →
      listShares uid idStr st now b = .forbidden) ∧
    (∀ uid idStr st now g b fid, parseDigits idStr = some fid →
      findFile st fid = none →
      getFileDetails uid idStr st now g b = .notFound) ∧
    (∀ uid idStr st fid, parseDigits idStr = some fid →
      findFile st fid = none →
      deleteFile uid idStr st = (.notFound, st)) ∧
    (∀ uid idStr ttlStr pwd token now st fid ttl,
      parseDigits idStr = some fid → parseOptDigits ttlStr = some ttl →
      pwdLenOk pwd = true → findFile st fid = none →
      createShare uid idStr ttlStr pwd token now st = (.notFound, st)) ∧
    (∀ uid idStr st now b n, jsParseInt idStr = some n →
      st.files.find? (fun g => (g.id : Int) = n) = none →
      listShares uid idStr st now b = .notFound) := by
  refine ⟨?_, ?_, ?_, ?_, ?_, ?_, ?_, ?_, ?_⟩
  · intro uid inp ts st row st2 h
    unfold uploadFile at h
    repeat' split at h
    · exact absurd h (by simp)
    · exact absurd h (by simp)
    all_goals
      obtain ⟨hrow, hst⟩ := Prod.mk.injEq .. ▸ h
      obtain rfl := (UploadResult.created.injEq .. ▸ hrow).symm
      refine ⟨isPrefixOf_append_cons (natChars uid) _ '/', ?_⟩
      rw [← hst]
      exact List.mem_append_right _ (List.mem_singleton_self _)
  · intro uid idStr st now g b fid f hid hfind hpref
    simp [getFileDetails, hid, hfind, hpref]
  · intro uid idStr st fid f hid hfind hpref
    simp [deleteFile, hid, hfind, hpref]
  · intro uid idStr ttlStr pwd token now st fid ttl f hid httl hpwd hfind hpref
    simp [createShare, hid, httl, hpwd, hfind, hpref]
  · intro uid idStr st now b n f hid hfind hpref
    simp [listShares, hid, hfind, hpref]
  · intro uid idStr st now g b fid hid hfind
    simp [getFileDetails, hid, hfind]
  · intro uid idStr st fid hid hfind
    simp [deleteFile, hid, hfind]
  · intro uid idStr ttlStr pwd token now st fid ttl hid httl hpwd hfind
    simp [createShare, hid, httl, hpwd, hfind]
  · intro uid idStr st now b n hid hfind
    simp [listShares, hid, hfind]

/-- Fixture: a file of tenant 8, foreign to tenant 7. -/
def foreignFile : FileRec :=
  ⟨2, "b".toList, none, "8/b".toList, none, "t".toList, 3, none, 0⟩

/-- Fixture store holding files of two tenants. -/
def demoStore3 : Store := ⟨[demoFile, foreignFile], [demoLink]⟩

/-- C1 witness: tenant 7 is refused on tenant 8's record and gets
`NotFound` on a missing id; tenant 7's own upload key is scoped. -/
theorem c1_tenant_isolation_witness :
    getFileDetails 7 "2".toList demoStore3 0 (fun k => k) [] = .forbidden ∧
    deleteFile 7 "2".toList demoStore3 = (.forbidden, demoStore3) ∧
    getFileDetails 7 "3".toList demoStore3 0 (fun k => k) [] = .notFound :=
  ⟨c1_tenant_isolation.2.1 7 "2".toList demoStore3 0 (fun k => k) [] 2
      foreignFile (by decide) (by decide) (by decide),
   c1_tenant_isolation.2.2.1 7 "2".toList demoStore3 2 foreignFile
      (by decide) (by decide) (by decide),
   c1_tenant_isolation.2.2.2.2.2.1 7 "3".toList demoStore3 0 (fun k => k) [] 3
      (by decide) (by decide)⟩

/-- C9 counterexample: `listFilesQuerySchema` accepts `page = "0"`
(the regex `^\d+$` matches it), so an accepted list request can carry
a page number below 1. -/
theorem c9_page_zero_accepted :
    parseListQuery ⟨none, none, none, none, none, none, none,
        some "0".toList, none⟩ =
      some ⟨none, none, none, none, none, none, none, 0, 50⟩ := by
  decide

/-- C9 amended: the page number defaults to 1 and the page size to 50
(any all-digit string, `"0"` included, is accepted); for every
accepted request the handler reports page, limit, the total matching
count and `totalPages = Math.ceil(total / limit)`, and serves the
window `skip = (page - 1) * limit, take = limit` (for `page ≥ 1`; the
negative offset of `page = 0` is clamped) of the matching rows in
creation-time-descending order; `jsCeilDiv` is exactly the ceiling of
the division for a positive limit. -/
theorem c9_pagination_semantics :
    (∀ raw q, parseListQuery raw = some q →
      (raw.page = none → q.page = 1) ∧ (raw.limit = none → q.limit = 50)) ∧
    (∀ uid raw st now b q, parseListQuery raw = some q →
      listFiles uid raw st now b = .ok ⟨
        (((sortFilesDesc (st.files.filter (matchesWhere uid q))).drop
            ((((q.page : Int) - 1) * q.limit).toNat)).take q.limit).map
          (listItemOf st now b),
        ⟨q.page, q.limit, (st.files.filter (matchesWhere uid q)).length,
          jsCeilDiv (st.files.filter (matchesWhere uid q)).length q.limit⟩⟩) ∧
    (∀ page limit : Nat, 1 ≤ page →
      (((page : Int) - 1) * limit).toNat = (page - 1) * limit) ∧
    (∀ l, List.Sorted fileNewer (sortFilesDesc l) ∧ (sortFilesDesc l).Perm l) ∧
    (∀ total limit, 0 < limit →
      total ≤ jsCeilDiv total limit * limit ∧
      ∀ m, total ≤ m * limit → jsCeilDiv total limit ≤ m) := by
  refine ⟨?_, ?_, ?_, ?_, ?_⟩
  · intro raw q h
    unfold parseListQuery at h
    cases hmn : parseOptDigits raw.minSize with
    | none => rw [hmn] at h; exact absurd h (by simp)
    | some mn =>
      cases hmx : parseOptDigits raw.maxSize with
      | none => rw [hmn, hmx] at h; exact absurd h (by simp)
      | some mx =>
        cases hpg : parseDigits (raw.page.getD "1".toList) with
        | none => rw [hmn, hmx, hpg] at h; exact absurd h (by simp)
        | some pg =>
          cases hlim : parseDigits (raw.limit.getD "50".toList) with
          | none => rw [hmn, hmx, hpg, hlim] at h; exact absurd h (by simp)
          | some lim =>
            rw [hmn, hmx, hpg, hlim] at h
            obtain rfl := (Option.some.inj h).symm
            constructor
            · intro hp
              rw [hp] at hpg
              have h1 : parseDigits "1".toList = some 1 := by decide
              simp only [Option.getD] at hpg
              rw [h1] at hpg
              exact (Option.some.inj hpg).symm
            · intro hl
              rw [hl] at hlim
              have h50 : parseDigits "50".toList = some 50 := by decide
              simp only [Option.getD] at hlim
              rw [h50] at hlim
              exact (Option.some.inj hlim).symm
  · intro uid raw st now b q h
    simp [listFiles, h]
  · intro page limit h
    have h1 : (page : Int) - 1 = ((page - 1 : Nat) : Int) := by omega
    rw [h1, ← Nat.cast_mul, Int.toNat_natCast]
  · intro l
    exact ⟨List.sorted_insertionSort fileNewer l, List.perm_insertionSort fileNewer l⟩
  · intro total limit hlim
    rcases Nat.eq_zero_or_pos total with h0 | hpos
    · subst h0
      constructor
      · exact Nat.zero_le _
      · intro m hm
        unfold jsCeilDiv
        have hz : (0 + limit - 1) / limit = 0 := Nat.div_eq_of_lt (by omega)
        rw [hz]
        exact Nat.zero_le m
    · have hceil : jsCeilDiv total limit = (total - 1) / limit + 1 := by
        unfold jsCeilDiv
        have h2 : total + limit - 1 = (total - 1) + limit := by omega
        rw [h2, Nat.add_div_right _ hlim]
      constructor
      · rw [hceil, Nat.add_mul, Nat.one_mul]
        have hdm := Nat.div_add_mod' (total - 1) limit
        have hmlt := Nat.mod_lt (total - 1) hlim
        generalize hgen : (total - 1) / limit * limit = e at hdm ⊢
        generalize hrr : (total - 1) % limit = r at hdm hmlt
        omega
      · intro m hm
        rw [hceil]
        have hk : total - 1 < m * limit := by
          generalize hml : m * limit = ml at hm ⊢
          omega
        have hlt := (Nat.div_lt_iff_lt_mul hlim).mpr hk
        generalize hu : (total - 1) / limit = u at hlt ⊢
        omega

/-- The default (empty) raw list query. -/
def rawDefaultQuery : RawListQuery :=
  ⟨none, none, none, none, none, none, none, none, none⟩

/-- C9 witness: the default query on the fixture store serves page 1,
limit 50, total 1, one page, and the single row. -/
theorem c9_pagination_semantics_witness :
    listFiles 7 rawDefaultQuery demoStore 0 [] =
      .ok ⟨[listItemOf demoStore 0 [] demoFile], ⟨1, 50, 1, 1⟩⟩ := by
  have h := c9_pagination_semantics.2.1 7 rawDefaultQuery demoStore 0 []
    ⟨none, none, none, none, none, none, none, 1, 50⟩ (by decide)
  rw [h]
  decide

/-- C10: a share-creation request with `ttl = "0"` passes the
validator with value 0, and the handler's `ttl || DEFAULT_TTL` treats
the falsy 0 as an absent TTL: the produced request is identical to one
with no TTL at all, and a created link expires at
`now + 604800 * 1000` ms — the 7-day default — so it is accepted and
not already expired. -/
theorem c10_ttl_zero_uses_default :
    (parseDigits "0".toList = some 0) ∧
    (ttlOrDefault (some 0) = DEFAULT_TTL) ∧ (DEFAULT_TTL = 604800) ∧
    (∀ uid idStr pwd token now st,
      createShare uid idStr (some "0".toList) pwd token now st =
        createShare uid idStr none pwd token now st) ∧
    (∀ uid idStr pwd token now st resp st2,
      createShare uid idStr (some "0".toList) pwd token now st =
        (.created resp, st2) →
      resp.expiresAt = now + 604800 * 1000 ∧ resp.ttl = 604800 ∧
      now < resp.expiresAt) := by
  have hz : parseOptDigits (some "0".toList) = some (some 0) := by decide
  have hz2 : parseOptDigits (some ['0']) = some (some 0) := by decide
  refine ⟨by decide, by decide, by decide, ?_, ?_⟩
  · intro uid idStr pwd token now st
    unfold createShare
    rw [hz]
    simp only [parseOptDigits]
    cases hid : parseDigits idStr with
    | none => rfl
    | some fid =>
      cases hpl : pwdLenOk pwd with
      | false => rfl
      | true => simp [ttlOrDefault]
  · intro uid idStr pwd token now st resp st2 h
    cases hid : parseDigits idStr with
    | none => simp [createShare, hz, hz2, hid] at h
    | some fid =>
      cases hpl : pwdLenOk pwd with
      | false => simp [createShare, hz, hz2, hid, hpl] at h
      | true =>
        cases hff : findFile st fid with
        | none => simp [createShare, hz, hz2, hid, hpl, hff] at h
        | some f =>
          by_cases hpref : (tenantHead uid).isPrefixOf f.key = true
          · by_cases hdup : (st.shares.any fun l => l.token = token) = true
            · simp [createShare, hz, hz2, hid, hpl, hff, hpref, hdup] at h
            · simp [createShare, hz, hz2, hid, hpl, hff, hpref, hdup] at h
              obtain ⟨h1, -⟩ := h
              subst h1
              refine ⟨?_, ?_, ?_⟩
              · show now + ttlOrDefault (some 0) * 1000 = now + 604800 * 1000
                simp [ttlOrDefault, DEFAULT_TTL]
              · show ttlOrDefault (some 0) = 604800
                simp [ttlOrDefault, DEFAULT_TTL]
              · show now < now + ttlOrDefault (some 0) * 1000
                simp [ttlOrDefault, DEFAULT_TTL]
          · simp [createShare, hz, hz2, hid, hpl, hff, hpref] at h

/-- Fixture: the reply of a `ttl = "0"` share creation on the fixture
store at time 5. -/
def c10Resp : ShareCreated :=
  ⟨shareUrlOf [] "share_u".toList, "share_u".toList, 604800005, false, 604800⟩

/-- Fixture: the store after that creation. -/
def c10Store : Store :=
  ⟨demoStore.files,
    demoStore.shares ++ [⟨2, "share_u".toList, 1, 604800005, none, 0, true, 5⟩]⟩

/-- C10 witness: the `ttl = "0"` creation on the fixture is accepted
and expires 604800 seconds after creation. -/
theorem c10_ttl_zero_uses_default_witness :
    c10Resp.expiresAt = 5 + 604800 * 1000 ∧ c10Resp.ttl = 604800 ∧
    5 < c10Resp.expiresAt :=
  c10_ttl_zero_uses_default.2.2.2.2 7 "1".toList none "share_u".toList 5
    demoStore c10Resp c10Store (by decide)

end ApiStorage
